import Mathlib

/-!
Shallow embedding of `PyTeCK/simulation.py`: the single-case ignition-delay
simulation driver and its analysis pipeline.

Python/numpy floating-point arithmetic is modelled over `ℚ`.  numpy division
by zero (which produces `inf`/`nan` together with a runtime warning) is
modelled by Lean's total division (`x / 0 = 0`); every place where this
matters is noted.  External collaborators (the Cantera reactor model, the
PyTables sink) are modelled by explicit parameters or by lists of states.
Apart from that, every definition follows the corresponding Python source
line by line.
-/

/-- Embedding of `np.gradient(f)` with the default unit spacing and the
default `edge_order=1`: one-sided first-order differences at the two
boundary points and central differences in the interior.  (numpy raises for
arrays of fewer than 2 elements; the embedding is only used on length ≥ 3.) -/
def npGradientUnit (f : List ℚ) : List ℚ :=
  (List.range f.length).map fun i =>
    if i = 0 then f.getD 1 0 - f.getD 0 0
    else if i = f.length - 1 then f.getD (f.length - 1) 0 - f.getD (f.length - 2) 0
    else (f.getD (i + 1) 0 - f.getD (i - 1) 0) / 2

/-- Embedding of `np.gradient(f, coords, edge_order=2)` where `coords` is an
array of the same length as `f`: per the numpy contract an array spacing
argument gives the *coordinates* of the values, and the gradient is taken
with respect to those coordinates — second-order central differences over
the (possibly non-uniform) local spacing in the interior and second-order
one-sided differences at the two boundary points.  When two consecutive
coordinates coincide numpy divides by zero (producing `inf`/`nan`); here the
total division of `ℚ` returns 0 instead.  (numpy raises for arrays of fewer
than `edge_order + 1` elements; the embedding is only used on length ≥ 3.) -/
def npGradientCoords (f coords : List ℚ) : List ℚ :=
  let d : Nat → ℚ := fun i => coords.getD (i + 1) 0 - coords.getD i 0
  let n := f.length
  (List.range n).map fun i =>
    if i = 0 then
      let dx1 := d 0
      let dx2 := d 1
      (-(2 * dx1 + dx2) / (dx1 * (dx1 + dx2))) * f.getD 0 0 +
        ((dx1 + dx2) / (dx1 * dx2)) * f.getD 1 0 +
        (-dx1 / (dx2 * (dx1 + dx2))) * f.getD 2 0
    else if i = n - 1 then
      let dx1 := d (n - 3)
      let dx2 := d (n - 2)
      (dx2 / (dx1 * (dx1 + dx2))) * f.getD (n - 3) 0 +
        (-(dx2 + dx1) / (dx1 * dx2)) * f.getD (n - 2) 0 +
        ((2 * dx2 + dx1) / (dx2 * (dx1 + dx2))) * f.getD (n - 1) 0
    else
      let dx1 := d (i - 1)
      let dx2 := d i
      (-dx2 / (dx1 * (dx1 + dx2))) * f.getD (i - 1) 0 +
        ((dx2 - dx1) / (dx1 * dx2)) * f.getD i 0 +
        (dx1 / (dx2 * (dx1 + dx2))) * f.getD (i + 1) 0

/-- Embedding of `first_derivative(x, y)` from `simulation.py`, which is
literally `np.gradient(y, np.gradient(x), edge_order=2)`: the gradient of
`y` is taken with the array `np.gradient(x)` as its coordinate array. -/
def first_derivative (x y : List ℚ) : List ℚ :=
  npGradientCoords y (npGradientUnit x)

/-- Embedding of `np.arange(start, stop, step)` for `step > 0` in exact
arithmetic: the values `start + k·step` for `0 ≤ k < ⌈(stop - start)/step⌉`. -/
def np_arange (start stop step : ℚ) : List ℚ :=
  (List.range (Int.toNat ⌈(stop - start) / step⌉)).map fun k : ℕ => start + (k : ℚ) * step

/-- Embedding of `sample_rising_pressure(time_end, init_pres, freq,
pressure_rise_rate)`: `times = np.arange(0, time_end + 1/freq, 1/freq)` and
`pressures = init_pres * (pressure_rise_rate * times + 1)`. -/
def sample_rising_pressure (time_end init_pres freq pressure_rise_rate : ℚ) :
    List ℚ × List ℚ :=
  let times := np_arange 0 (time_end + 1 / freq) (1 / freq)
  (times, times.map fun t => init_pres * (pressure_rise_rate * t + 1))

/-- Embedding of `create_volume_history`.  The Cantera gas object is an
external collaborator; its role here is reduced to the density query at
fixed entropy performed in the loop body (`gas.SP = initial_entropy, p;
volumes[i] = initial_density / gas.density`), modelled by the function
parameter `density : entropy → pressure → density` together with the opaque
initial entropy and initial density obtained from the initial state.
Pressure is sampled at 20 kHz (`freq = 2.0e4`). -/
def create_volume_history (density : ℚ → ℚ → ℚ)
    (initial_entropy initial_density pres pres_rise time_end : ℚ) :
    List ℚ × List ℚ :=
  let tp := sample_rising_pressure time_end pres 20000 pres_rise
  (tp.1, tp.2.map fun p => initial_density / density initial_entropy p)

/-- Scan step of `np.interp`: given the previous sample `(x0, y0)`, walk the
remaining samples; on the first segment whose right end is ≥ `t`,
linearly interpolate; past the last sample return the right fill value. -/
def interpGo (t r : ℚ) : ℚ → ℚ → List ℚ → List ℚ → ℚ
  | x0, y0, x1 :: xs, y1 :: ys =>
    if t ≤ x1 then y0 + (y1 - y0) * (t - x0) / (x1 - x0) else interpGo t r x1 y1 xs ys
  | x0, y0, _, _ => if t ≤ x0 then y0 else r

/-- Embedding of `np.interp(t, xs, ys, left=l, right=r)` for increasing
sample positions `xs`: piecewise-linear interpolation of the points
`(xs i, ys i)` at `t`, returning `l` for `t` below the first sample and `r`
for `t` above the last. -/
def np_interp (t l r : ℚ) : List ℚ → List ℚ → ℚ
  | x0 :: xs, y0 :: ys => if t < x0 then l else interpGo t r x0 y0 xs ys
  | _, _ => l

/-- Embedding of `np.interp(t, xs, ys)` with the default fill values
`left = ys[0]`, `right = ys[-1]`. -/
def np_interp_default (t : ℚ) (xs ys : List ℚ) : ℚ :=
  np_interp t (ys.getD 0 0) (ys.getLastD 0) xs ys

/-- State shared by both velocity-profile variants: sample times and the
velocity samples computed from them (`self.times`, `self.velocity`). -/
structure VolumeProfile where
  times : List ℚ
  velocity : List ℚ

/-- Embedding of `VolumeProfile.__init__`: the volume samples are divided by
their first element and the velocity is `first_derivative` of the
normalized volumes with respect to the times. -/
def VolumeProfile.ofHistory (times volumes : List ℚ) : VolumeProfile :=
  { times := times
    velocity := first_derivative times (volumes.map fun v => v / volumes.getD 0 0) }

/-- Embedding of `VolumeProfile.__call__` (inherited unchanged by
`PressureRiseProfile`): `np.interp(time, self.times, self.velocity,
left=0., right=0.)`. -/
def VolumeProfile.call (p : VolumeProfile) (time : ℚ) : ℚ :=
  np_interp time 0 0 p.times p.velocity

/-- Embedding of `PressureRiseProfile.__init__`: the times and volumes come
from `create_volume_history` and the velocity is their `first_derivative`
(no renormalization — the first volume sample is 1 by construction). -/
def PressureRiseProfile.ofPressureRise (density : ℚ → ℚ → ℚ)
    (initial_entropy initial_density initial_pres pressure_rise time_end : ℚ) :
    VolumeProfile :=
  let tv := create_volume_history density initial_entropy initial_density
    initial_pres pressure_rise time_end
  { times := tv.1, velocity := first_derivative tv.1 tv.2 }

/-- The textbook two-point linear interpolation formula, used to state what
the recorded overshoot row must equal. -/
def linearInterp (t t0 t1 v0 v1 : ℚ) : ℚ := v0 + (v1 - v0) * (t - t0) / (t1 - t0)

/-- One recorded instant of the simulation: the five columns of the table
written by `run_case` (time, temperature, pressure, volume, mass-fraction
vector), which are also the components of the reactor state read after each
step. -/
structure TimeState where
  time : ℚ
  temp : ℚ
  pres : ℚ
  vol : ℚ
  Y : List ℚ
deriving DecidableEq

/-- The row appended by `run_case` when a step overshoots the end time:
time is set to the end time and every other channel is `np.interp` (with
default fill values) between the previous state and the overshooting state. -/
def interpRecord (endTime : ℚ) (p s : TimeState) : TimeState :=
  { time := endTime
    temp := np_interp_default endTime [p.time, s.time] [p.temp, s.temp]
    pres := np_interp_default endTime [p.time, s.time] [p.pres, s.pres]
    vol := np_interp_default endTime [p.time, s.time] [p.vol, s.vol]
    Y := (List.range s.Y.length).map fun i =>
      np_interp_default endTime [p.time, s.time] [p.Y.getD i 0, s.Y.getD i 0] }

/-- Embedding of the main integration loop of `run_case`.  The external
`ReactorNet` stepper is modelled by the list `steps` of successive states
returned by `self.reac_net.step(...)`; `curTime` is `self.reac_net.time`,
`prev` carries the `prev_*` local variables (noting that they are unbound —
`none` — until the first loop iteration completes), and `acc` is the rows
appended to the table so far.  Running out of `steps` while the loop
condition still holds is an artifact of modelling the stepper by a finite
list and is reported as a distinguished error. -/
def runLoop (endTime : ℚ) :
    ℚ → Option TimeState → List TimeState → List TimeState →
      Except String (List TimeState)
  | curTime, _, [], acc =>
    if curTime < endTime then Except.error "stepper exhausted" else Except.ok acc
  | curTime, prev, s :: rest, acc =>
    if curTime < endTime then
      if endTime < s.time then
        match prev with
        | none =>
          Except.error "UnboundLocalError: local variable prev_time referenced before assignment"
        | some p => Except.ok (acc ++ [interpRecord endTime p s])
      else runLoop endTime s.time (some s) rest (acc ++ [s])
    else Except.ok acc

/-- Embedding of `Simulation.run_case`: record the initial state, then run
the integration loop. -/
def run_case (endTime : ℚ) (init : TimeState) (steps : List TimeState) :
    Except String (List TimeState) :=
  runLoop endTime init.time none steps [init]

/-- Modelled from the spec: the function `detect_peaks` lives in
`PyTeCK/detect_peaks.py`, which is not under `src/`.  Spec §4.2 describes it
as a local-maximum detector over a 1-D signal returning an ordered, possibly
empty index sequence, empty on monotone or constant input, with a permissive
default policy (the first and last samples cannot be peaks).  It is modelled
as the strict interior local maxima in increasing index order. -/
def detect_peaks (x : List ℚ) : List Nat :=
  (List.range x.length).filter fun i =>
    decide (0 < i) && decide (i + 1 < x.length) &&
      decide (x.getD (i - 1) 0 < x.getD i 0) && decide (x.getD (i + 1) 0 < x.getD i 0)

/-- Helper for `np_argmax`: fold over the remaining values keeping the first
index attaining the running maximum. -/
def argmaxGo (best : ℚ) (bestIdx cur : Nat) : List ℚ → Nat
  | [] => bestIdx
  | v :: vs => if best < v then argmaxGo v cur (cur + 1) vs else argmaxGo best bestIdx (cur + 1) vs

/-- Embedding of `np.argmax`: index of the first occurrence of the maximum
value.  numpy raises `ValueError` on an empty array; the caller
`select_delays` guards that case explicitly, so the `[]` equation is dead
code. -/
def np_argmax : List ℚ → Nat
  | [] => 0
  | v :: vs => argmaxGo v 0 1 vs

/-- Embedding of the delay-selection tail of `Simulation.process_results`
(everything from `max_ind = ind[np.argmax(target[ind])]` on).  The numpy
fancy indexing is reproduced exactly: `ind2 = ind[ind <= max_ind]`, a
boolean `mask` over `ind2`, and `sel = ind[np.where(mask)]` — note that the
positions produced by `np.where` index the *full* `ind`, not `ind2`.
`np.argmax` on the empty peak set raises `ValueError`, embedded as the
error return.  The NaN first-stage marker is embedded as `none`. -/
def select_delays (time target : List ℚ) (ind : List Nat) (time_comp : ℚ) :
    Except String (ℚ × Option ℚ) :=
  if ind = [] then Except.error "attempt to get argmax of an empty sequence"
  else
    let max_ind := ind.getD (np_argmax (ind.map fun i => target.getD i 0)) 0
    let ind2 := ind.filter fun i => decide (i ≤ max_ind)
    let mask := ind2.map fun i => decide (0 < time.getD i 0 - time_comp)
    let positions := (List.range mask.length).filter fun j => mask.getD j false
    let sel := positions.map fun j => ind.getD j 0
    let ign_delays := sel.map fun i => time.getD i 0 - time_comp
    Except.ok
      ((if 0 < ign_delays.length then ign_delays.getLastD 0 else 0),
        if 1 < ign_delays.length then some (ign_delays.getD 0 0) else none)

/-- Step 2 of `process_results`: if the ignition type is `d/dt max`, replace
the diagnostic channel by its `first_derivative` with respect to time. -/
def ddt_target (ignType : String) (time target : List ℚ) : List ℚ :=
  if ignType = "d/dt max" then first_derivative time target else target

/-- Steps 3–4 of `process_results`: run `detect_peaks`; if the result is
empty and the ignition type is `max`, differentiate the channel and re-run
`detect_peaks`.  Returns the final channel together with the final peak
index list. -/
def fallback_pair (ignType : String) (time t1 : List ℚ) : List ℚ × List Nat :=
  let ind := detect_peaks t1
  if ind = [] ∧ ignType = "max" then
    let t2 := first_derivative time t1
    (t2, detect_peaks t2)
  else (t1, ind)

/-- Embedding of `Simulation.process_results` for a diagnostic channel
`target` already read from the table (channel selection by ignition target
is a straight table read), with `time_comp` the declared compression time
(0 when absent). -/
def process_results (ignType : String) (time target : List ℚ) (time_comp : ℚ) :
    Except String (ℚ × Option ℚ) :=
  let t1 := ddt_target ignType time target
  let p := fallback_pair ignType time t1
  select_delays time p.1 p.2 time_comp

/-- The candidate-delay list as spec §4.6 step 7 describes it: the detected
peaks at or before the dominant peak whose compression-corrected time is
strictly positive, in order, mapped to their delays
`time[p] - compression_time`.  Stated from the spec's words, to be compared
with the fancy-indexing arithmetic actually performed by `select_delays`. -/
def candidate_delays (time target : List ℚ) (ind : List Nat) (time_comp : ℚ) : List ℚ :=
  (ind.filter fun i =>
      decide (i ≤ ind.getD (np_argmax (ind.map fun j => target.getD j 0)) 0) &&
      decide (0 < time.getD i 0 - time_comp)).map fun i => time.getD i 0 - time_comp

/-- Embedding of Cantera's `gas.species_index`: index of the species with
the given name, or failure (`ValueError`) when absent, modelled by
`Option`. -/
def species_index (speciesNames : List String) (name : String) : Option Nat :=
  speciesNames.findIdx? fun s => s == name

/-- ASCII lower-casing of one character, the behaviour of Python's
`str.lower` on the ASCII species names this code handles. -/
def char_lower (c : Char) : Char :=
  if 'A' ≤ c ∧ c ≤ 'Z' then Char.ofNat (c.toNat + 32) else c

/-- Embedding of Python's `spec.lower()` (species names are ASCII). -/
def str_lower (s : String) : String := ⟨s.data.map char_lower⟩

/-- Embedding of Python's `spec[-1] == '*'` (Python raises on an empty
name; the default character ` ` is never `*`). -/
def str_last_is_star (s : String) : Bool := s.data.getLastD ' ' == '*'

/-- Embedding of Python's `spec[:-1]`: the name without its last character. -/
def str_dropLast (s : String) : String := ⟨s.data.dropLast⟩

/-- The candidate-name list built by `setup_case`: the name itself, its
lower-cased form, and — when the name ends in `*` (excited radical) — the
name with the `*` stripped and that stripped name lower-cased. -/
def try_list (spec : String) : List String :=
  [spec, str_lower spec] ++
    (if str_last_is_star spec then [str_dropLast spec, str_lower (str_dropLast spec)]
      else [])

/-- The lookup loop of `setup_case`: starting from `ind = None`, try each
candidate in order and break at the first successful `species_index`. -/
def loopFind (speciesNames : List String) : List String → Option Nat
  | [] => none
  | sp :: rest =>
    match species_index speciesNames sp with
    | some i => some i
    | none => loopFind speciesNames rest

/-- Embedding of the ignition-target resolution at the end of
`Simulation.setup_case`.  The result is the final `ignition_target` (left:
the strings `pressure`/`temperature`, right: a species index) paired with
the final `ignition_type`.  The Python test `if ind:` is Python truthiness:
both `None` and the integer `0` fail it. -/
def resolve_ignition (speciesNames : List String) (target ignType : String) :
    (String ⊕ Nat) × String :=
  if target = "pressure" ∨ target = "temperature" then (Sum.inl target, ignType)
  else
    match loopFind speciesNames (try_list target) with
    | some i => if i ≠ 0 then (Sum.inr i, ignType) else (Sum.inl "pressure", "d/dt max")
    | none => (Sum.inl "pressure", "d/dt max")

theorem length_first_derivative (x y : List ℚ) :
    (first_derivative x y).length = y.length := by
  simp [first_derivative, npGradientCoords]

/-- C1: claimed — on a strictly increasing `x` of length ≥ 3 and a linear
signal `y = m·x + c`, `first_derivative(x, y)` returns `m` at every index.
In fact the code passes `np.gradient(x)` as the *coordinate* array of
`np.gradient`, so it differentiates `y` with respect to the local-spacing
array rather than with respect to `x`.  At the uniformly spaced failing
input `x = [0,1,2]`, `y = 2·x + 1 = [1,3,5]` the coordinate array is the
constant `[1,1,1]`, every local spacing is zero, and the code produces
`nan` (0 under the total division of `ℚ`) at every index instead of
`m = 2`.  The third conjunct shows that the intended call documented in the
function's own docstring, `np.gradient(y, x, edge_order=2)`, does return
`2` at every index for this input. -/
theorem C1_first_derivative_code_bug :
    first_derivative [0, 1, 2] [1, 3, 5] = [0, 0, 0] ∧
    first_derivative [0, 1, 2] [1, 3, 5] ≠ [2, 2, 2] ∧
    npGradientCoords [1, 3, 5] [0, 1, 2] = [2, 2, 2] := by
  norm_num [first_derivative, npGradientUnit, npGradientCoords, List.range_succ]

theorem np_interp_lt_head (t l r x0 : ℚ) (xs ys : List ℚ) (h : t < x0) :
    np_interp t l r (x0 :: xs) ys = l := by
  cases ys with
  | nil => rfl
  | cons y0 ys => simp [np_interp, h]

theorem interpGo_gt (t r : ℚ) :
    ∀ (xs ys : List ℚ) (x0 y0 : ℚ), x0 < t → (∀ x ∈ xs, x < t) →
      interpGo t r x0 y0 xs ys = r
  | [], ys, x0, y0, h0, _ => by
    cases ys <;> simp [interpGo, not_le.mpr h0]
  | x1 :: xs, [], x0, y0, h0, _ => by
    simp [interpGo, not_le.mpr h0]
  | x1 :: xs, y1 :: ys, x0, y0, h0, h => by
    have hx1 : x1 < t := h x1 (List.mem_cons_self _ _)
    rw [interpGo, if_neg (not_le.mpr hx1)]
    exact interpGo_gt t r xs ys x1 y1 hx1 fun x hx => h x (List.mem_cons_of_mem _ hx)

theorem np_interp_gt (t l r x0 y0 : ℚ) (xs ys : List ℚ)
    (h : ∀ x ∈ x0 :: xs, x < t) :
    np_interp t l r (x0 :: xs) (y0 :: ys) = r := by
  have h0 : x0 < t := h x0 (List.mem_cons_self _ _)
  rw [np_interp, if_neg (not_lt.mpr (le_of_lt h0))]
  exact interpGo_gt t r xs ys x0 y0 h0 fun x hx => h x (List.mem_cons_of_mem _ hx)

theorem np_interp_segment (t l r : ℚ) (i : ℕ) :
    ∀ xs ys : List ℚ, ys.length = xs.length → xs.Pairwise (· < ·) →
      i + 1 < xs.length → xs.getD i 0 ≤ t → t ≤ xs.getD (i + 1) 0 →
      np_interp t l r xs ys =
        ys.getD i 0 + (ys.getD (i + 1) 0 - ys.getD i 0) * (t - xs.getD i 0) /
          (xs.getD (i + 1) 0 - xs.getD i 0) := by
  induction i with
  | zero =>
    intro xs ys hlen hp hi h1 h2
    match xs, ys, hlen, hi with
    | x0 :: x1 :: xs', y0 :: y1 :: ys', _, _ =>
      have h1' : x0 ≤ t := by simpa using h1
      have h2' : t ≤ x1 := by simpa using h2
      rw [np_interp, if_neg (not_lt.mpr h1'), interpGo, if_pos h2']
      simp
  | succ k ih =>
    intro xs ys hlen hp hi h1 h2
    match xs, ys, hlen, hi with
    | x0 :: x1 :: xs', y0 :: y1 :: ys', hlen, hi =>
      have hk1 : k + 1 < (x1 :: xs').length := by
        simpa using Nat.lt_of_succ_lt_succ hi
      have hk : k < (x1 :: xs').length := Nat.lt_of_succ_lt hk1
      have h1' : (x1 :: xs').getD k 0 ≤ t := by simpa using h1
      have h2' : t ≤ (x1 :: xs').getD (k + 1) 0 := by simpa using h2
      have hmem : (x1 :: xs').getD k 0 ∈ x1 :: xs' := by
        rw [List.getD_eq_getElem _ _ hk]
        exact List.getElem_mem _
      have hx0 : x0 < (x1 :: xs').getD k 0 := (List.pairwise_cons.mp hp).1 _ hmem
      have hx0t : ¬ t < x0 := not_lt.mpr (le_of_lt (lt_of_lt_of_le hx0 h1'))
      rw [np_interp, if_neg hx0t]
      by_cases hx1 : t ≤ x1
      · cases k with
        | zero =>
          have ht : t = x1 := le_antisymm hx1 (by simpa using h1')
          have hx01 : x0 < x1 := (List.pairwise_cons.mp hp).1 x1 (List.mem_cons_self _ _)
          rw [interpGo, if_pos hx1, ht, mul_div_assoc,
            div_self (sub_ne_zero.mpr (ne_of_gt hx01)), mul_one]
          simp [sub_self]
        | succ k' =>
          exfalso
          have hk'len : k' < xs'.length := by simpa using Nat.lt_of_succ_lt hk1
          have hmem2 : xs'.getD k' 0 ∈ xs' := by
            rw [List.getD_eq_getElem _ _ hk'len]
            exact List.getElem_mem _
          have hx1lt : x1 < xs'.getD k' 0 :=
            (List.pairwise_cons.mp (List.pairwise_cons.mp hp).2).1 _ hmem2
          have : xs'.getD k' 0 ≤ t := by simpa using h1'
          exact absurd (le_trans this hx1) (not_le.mpr hx1lt)
      · push_neg at hx1
        rw [interpGo, if_neg (not_le.mpr hx1)]
        have hswap : interpGo t r x1 y1 xs' ys' = np_interp t l r (x1 :: xs') (y1 :: ys') := by
          rw [np_interp, if_neg (not_lt.mpr (le_of_lt hx1))]
        rw [hswap, ih (x1 :: xs') (y1 :: ys') (by simpa using hlen)
          (List.pairwise_cons.mp hp).2 hk1 h1' h2']
        simp

theorem le_getLast_of_pairwise :
    ∀ (xs : List ℚ) (hne : xs ≠ []), xs.Pairwise (· < ·) →
      ∀ x ∈ xs, x ≤ xs.getLast hne
  | [a], _, _, x, hx => by
    simp at hx
    simp [hx]
  | a :: b :: xs, _, hp, x, hx => by
    rw [List.getLast_cons (by simp : b :: xs ≠ [])]
    rcases List.mem_cons.mp hx with rfl | hx'
    · have hmem : (b :: xs).getLast (by simp) ∈ b :: xs := List.getLast_mem _
      exact le_of_lt ((List.pairwise_cons.mp hp).1 _ hmem)
    · exact le_getLast_of_pairwise (b :: xs) (by simp) (List.pairwise_cons.mp hp).2 x hx'

/-- C7: a `VolumeProfile` built from a time-volume history stores
`velocity = first_derivative(times, volumes / volumes[0])`; a
`PressureRiseProfile` stores the `create_volume_history` times together
with `first_derivative` of its volumes; and every profile (both variants
share `__call__`) answers a query at `t` with the piecewise-linear
interpolation of the stored velocity samples, returning exactly 0 before
the first sample time and after the last sample time. -/
theorem C7_velocity_profile :
    (∀ times volumes : List ℚ,
        (VolumeProfile.ofHistory times volumes).times = times ∧
        (VolumeProfile.ofHistory times volumes).velocity =
          first_derivative times (volumes.map fun v => v / volumes.getD 0 0)) ∧
    (∀ (density : ℚ → ℚ → ℚ) (s0 d0 P0 A tend : ℚ),
        (PressureRiseProfile.ofPressureRise density s0 d0 P0 A tend).times =
          (create_volume_history density s0 d0 P0 A tend).1 ∧
        (PressureRiseProfile.ofPressureRise density s0 d0 P0 A tend).velocity =
          first_derivative (create_volume_history density s0 d0 P0 A tend).1
            (create_volume_history density s0 d0 P0 A tend).2) ∧
    (∀ p : VolumeProfile, p.velocity.length = p.times.length →
        p.times.Pairwise (· < ·) →
        (∀ t : ℚ, ∀ _ : p.times ≠ [], t < p.times.getD 0 0 → p.call t = 0) ∧
        (∀ t : ℚ, ∀ hne : p.times ≠ [], p.times.getLast hne < t → p.call t = 0) ∧
        (∀ (i : ℕ) (t : ℚ), i + 1 < p.times.length →
          p.times.getD i 0 ≤ t → t ≤ p.times.getD (i + 1) 0 →
          p.call t = p.velocity.getD i 0 +
            (p.velocity.getD (i + 1) 0 - p.velocity.getD i 0) * (t - p.times.getD i 0) /
              (p.times.getD (i + 1) 0 - p.times.getD i 0))) := by
  refine ⟨fun times volumes => ⟨rfl, rfl⟩,
    fun density s0 d0 P0 A tend => ⟨rfl, rfl⟩, ?_⟩
  intro p hlen hp
  refine ⟨?_, ?_, ?_⟩
  · intro t hne hlt
    obtain ⟨x0, xs, htimes⟩ := List.exists_cons_of_ne_nil hne
    rw [VolumeProfile.call, htimes]
    exact np_interp_lt_head t 0 0 x0 xs p.velocity (by simpa [htimes] using hlt)
  · intro t hne hgt
    obtain ⟨x0, xs, htimes⟩ := List.exists_cons_of_ne_nil hne
    have hvne : p.velocity ≠ [] := by
      intro hv
      rw [hv, htimes] at hlen
      simp at hlen
    obtain ⟨y0, ys, hvel⟩ := List.exists_cons_of_ne_nil hvne
    rw [VolumeProfile.call, htimes, hvel]
    apply np_interp_gt
    intro x hx
    have hle : x ≤ p.times.getLast hne := by
      apply le_getLast_of_pairwise p.times hne hp
      rw [htimes]
      exact hx
    exact lt_of_le_of_lt hle hgt
  · intro i t hi h1 h2
    exact np_interp_segment t 0 0 i p.times p.velocity hlen hp hi h1 h2

/-- Witness for C7 at concrete inputs: the constructor equation at
`times = [0,1,2]`, `volumes = [2,4,8]`; the pressure-rise constructor at a
concrete density function; and the query contract of the concrete profile
`times = [0,1,3]`, `velocity = [5,7,9]` below, above, and inside the
sampled range. -/
theorem C7_velocity_profile_witness :
    (VolumeProfile.ofHistory [0, 1, 2] [2, 4, 8]).velocity =
      first_derivative [0, 1, 2] ([2, 4, 8].map fun v => v / [2, 4, 8].getD 0 0) ∧
    (PressureRiseProfile.ofPressureRise (fun _ p => p) 0 1 1 0 1).velocity =
      first_derivative (create_volume_history (fun _ p => p) 0 1 1 0 1).1
        (create_volume_history (fun _ p => p) 0 1 1 0 1).2 ∧
    VolumeProfile.call ⟨[0, 1, 3], [5, 7, 9]⟩ (-1) = 0 ∧
    VolumeProfile.call ⟨[0, 1, 3], [5, 7, 9]⟩ 4 = 0 ∧
    VolumeProfile.call ⟨[0, 1, 3], [5, 7, 9]⟩ 2 = 8 := by
  have h := C7_velocity_profile
  have h2 := h.2.2 ⟨[0, 1, 3], [5, 7, 9]⟩ (by decide) (by decide)
  refine ⟨(h.1 [0, 1, 2] [2, 4, 8]).2,
    (h.2.1 (fun _ p => p) 0 1 1 0 1).2, ?_, ?_, ?_⟩
  · exact h2.1 (-1) (by decide) (by norm_num)
  · exact h2.2.1 4 (by decide) (by norm_num [List.getLast])
  · have hseg := h2.2.2 1 2 (by decide) (by norm_num) (by norm_num)
    rw [hseg]
    norm_num

theorem runLoop_pre (endTime : ℚ) :
    ∀ (pre : List TimeState) (curTime : ℚ) (prev : Option TimeState)
      (rest acc : List TimeState), curTime < endTime →
      (∀ q ∈ pre, q.time < endTime) →
      runLoop endTime curTime prev (pre ++ rest) acc =
        runLoop endTime (pre.foldl (fun _ q => q.time) curTime)
          (pre.foldl (fun _ q => some q) prev) rest (acc ++ pre)
  | [], curTime, prev, rest, acc, _, _ => by simp
  | q :: pre, curTime, prev, rest, acc, hcur, hpre => by
    have hq : q.time < endTime := hpre q (List.mem_cons_self _ _)
    rw [List.cons_append, runLoop.eq_def]
    simp only [if_pos hcur, if_neg (not_lt.mpr (le_of_lt hq))]
    rw [runLoop_pre endTime pre q.time (some q) rest (acc ++ [q]) hq
        (fun x hx => hpre x (List.mem_cons_of_mem _ hx))]
    simp

theorem np_interp_default_two (a b y0 y1 t : ℚ) (h1 : a ≤ t) (h2 : t ≤ b) :
    np_interp_default t [a, b] [y0, y1] = linearInterp t a b y0 y1 := by
  rw [np_interp_default, np_interp, if_neg (not_lt.mpr h1), interpGo, if_pos h2, linearInterp]

theorem interpRecord_eq (endTime : ℚ) (p s : TimeState)
    (h1 : p.time ≤ endTime) (h2 : endTime ≤ s.time) :
    interpRecord endTime p s =
      { time := endTime
        temp := linearInterp endTime p.time s.time p.temp s.temp
        pres := linearInterp endTime p.time s.time p.pres s.pres
        vol := linearInterp endTime p.time s.time p.vol s.vol
        Y := (List.range s.Y.length).map fun i =>
          linearInterp endTime p.time s.time (p.Y.getD i 0) (s.Y.getD i 0) } := by
  simp only [interpRecord, np_interp_default_two _ _ _ _ _ h1 h2]

/-- C2: whenever the integration loop of `run_case` has completed at least
one in-range step (so the `prev_*` locals are bound), and an advance then
moves the time from `p.time < end` to `s.time > end`, the run records the
initial state, every in-range step verbatim, and one final row whose time is
exactly the end time and whose temperature, pressure, volume, and
per-species mass fractions are the linear interpolations between the states
at `p.time` and `s.time` evaluated at the end time; integration stops with
that row (later stepper states are never consumed). -/
theorem C2_overshoot_interpolation (endTime : ℚ) (init p s : TimeState)
    (pre rest : List TimeState)
    (hinit : init.time < endTime)
    (hpre : ∀ q ∈ pre ++ [p], q.time < endTime)
    (hs : endTime < s.time) :
    run_case endTime init ((pre ++ [p]) ++ s :: rest) =
      Except.ok ((init :: (pre ++ [p])) ++
        [{ time := endTime
           temp := linearInterp endTime p.time s.time p.temp s.temp
           pres := linearInterp endTime p.time s.time p.pres s.pres
           vol := linearInterp endTime p.time s.time p.vol s.vol
           Y := (List.range s.Y.length).map fun i =>
             linearInterp endTime p.time s.time (p.Y.getD i 0) (s.Y.getD i 0) }]) := by
  rw [run_case, runLoop_pre endTime (pre ++ [p]) init.time none (s :: rest) [init] hinit hpre]
  have hfold1 : (pre ++ [p]).foldl (fun _ q => q.time) init.time = p.time := by
    rw [List.foldl_append]
    rfl
  have hfold2 : (pre ++ [p]).foldl (fun _ q => some q) (none : Option TimeState) = some p := by
    rw [List.foldl_append]
    rfl
  have hp : p.time < endTime := hpre p (by simp)
  rw [hfold1, hfold2]
  simp only [runLoop, if_pos hp, if_pos hs]
  rw [interpRecord_eq endTime p s (le_of_lt hp) (le_of_lt hs)]
  simp

/-- Witness for C2: a concrete two-step run with `end time = 2`, a completed
step at time 1, and an overshooting step at time 3; the final row is the
midpoint state at time 2. -/
theorem C2_overshoot_interpolation_witness :
    run_case 2 ⟨0, 300, 1, 1, [1, 0]⟩
      [⟨1, 400, 2, 3, [1/2, 1/2]⟩, ⟨3, 600, 4, 5, [0, 1]⟩] =
      Except.ok [⟨0, 300, 1, 1, [1, 0]⟩, ⟨1, 400, 2, 3, [1/2, 1/2]⟩,
        ⟨2, 500, 3, 4, [1/4, 3/4]⟩] := by
  have h := C2_overshoot_interpolation 2 ⟨0, 300, 1, 1, [1, 0]⟩
    ⟨1, 400, 2, 3, [1/2, 1/2]⟩ ⟨3, 600, 4, 5, [0, 1]⟩ [] []
    (by norm_num) (by intro q hq; simp at hq; rw [hq]; norm_num) (by norm_num)
  simp only [List.nil_append, List.singleton_append, List.cons_append] at h
  rw [h]
  norm_num [linearInterp, List.range_succ]

/-- C9: if the very first advance of the reactor network already overshoots
the end time, `run_case` fails with an unbound-local error instead of
recording an interpolated final row, because the `prev_*` variables are
first assigned only at the end of a completed loop iteration. -/
theorem C9_first_step_overshoot (endTime : ℚ) (init s : TimeState)
    (rest : List TimeState)
    (hinit : init.time < endTime) (hs : endTime < s.time) :
    run_case endTime init (s :: rest) =
      Except.error
        "UnboundLocalError: local variable prev_time referenced before assignment" := by
  rw [run_case]
  simp [runLoop, hinit, hs]

/-- Witness for C9: a first step from time 0 directly to time 3 with end
time 2 raises the unbound-local error. -/
theorem C9_first_step_overshoot_witness :
    run_case 2 ⟨0, 300, 1, 1, [1]⟩ [⟨3, 600, 4, 5, [0]⟩] =
      Except.error
        "UnboundLocalError: local variable prev_time referenced before assignment" :=
  C9_first_step_overshoot 2 ⟨0, 300, 1, 1, [1]⟩ ⟨3, 600, 4, 5, [0]⟩ []
    (by norm_num) (by norm_num)

/-- C5: counterexample to the claim as stated.  The claim says the first
successful lookup fixes the species index as the target, and only when no
candidate matches does the code fall back to pressure; in particular
`"OH*"` when only `"OH"` exists should resolve to `"OH"`'s index with no
fallback.  With the mechanism `["OH"]` the lookup succeeds with index 0,
but `if ind:` treats the integer 0 as false, so the code warns and falls
back to pressure with type `d/dt max` anyway. -/
theorem C5_species_resolution_counterexample :
    resolve_ignition ["OH"] "OH*" "max" ≠ (Sum.inr 0, "max") ∧
    resolve_ignition ["OH"] "OH*" "max" = (Sum.inl "pressure", "d/dt max") := by
  constructor <;> decide

/-- C5 (amended): candidates are tried in the order given by `try_list`
(exact, lower-cased, and for a trailing `*` the stripped name and its
lower-cased form); the first successful lookup fixes the species index as
the target provided that index is nonzero; when no candidate matches — and
also when the matched index is 0, because of the truthiness test
`if ind:` — the code falls back to target = pressure with ignition type
forced to `d/dt max`. -/
theorem C5_species_resolution_amended (speciesNames : List String)
    (target ignType : String)
    (hnt : ¬(target = "pressure" ∨ target = "temperature")) :
    (∀ i : Nat, loopFind speciesNames (try_list target) = some i → i ≠ 0 →
        resolve_ignition speciesNames target ignType = (Sum.inr i, ignType)) ∧
    (loopFind speciesNames (try_list target) = none →
        resolve_ignition speciesNames target ignType =
          (Sum.inl "pressure", "d/dt max")) ∧
    (∀ i : Nat, loopFind speciesNames (try_list target) = some i → i = 0 →
        resolve_ignition speciesNames target ignType =
          (Sum.inl "pressure", "d/dt max")) := by
  refine ⟨?_, ?_, ?_⟩
  · intro i hfound hi
    rw [resolve_ignition, if_neg hnt, hfound]
    simp [hi]
  · intro hfound
    rw [resolve_ignition, if_neg hnt, hfound]
  · intro i hfound hi
    rw [resolve_ignition, if_neg hnt, hfound]
    simp [hi]

/-- Witness for the amended C5: `"OH*"` with mechanism `["H2", "OH"]`
resolves to index 1 keeping the ignition type, and a nonexistent species
falls back to pressure with `d/dt max`. -/
theorem C5_species_resolution_amended_witness :
    resolve_ignition ["H2", "OH"] "OH*" "max" = (Sum.inr 1, "max") ∧
    resolve_ignition ["H2"] "CH" "max" = (Sum.inl "pressure", "d/dt max") :=
  ⟨(C5_species_resolution_amended ["H2", "OH"] "OH*" "max" (by decide)).1 1
      (by decide) (by decide),
    (C5_species_resolution_amended ["H2"] "CH" "max" (by decide)).2.1 (by decide)⟩

/-- C10: when the ignition-target species is found but its resolved index
is 0 (the mechanism's first species), `setup_case` still takes the
not-found path — warning plus fallback to target = pressure and type
`d/dt max` — because the found index is tested with Python truthiness
(`if ind:`) rather than compared against `None`. -/
theorem C10_zero_index_fallback (speciesNames : List String)
    (target ignType : String)
    (hnt : ¬(target = "pressure" ∨ target = "temperature"))
    (hfound : loopFind speciesNames (try_list target) = some 0) :
    resolve_ignition speciesNames target ignType =
      (Sum.inl "pressure", "d/dt max") := by
  rw [resolve_ignition, if_neg hnt, hfound]
  simp

/-- Witness for C10: the species `"OH"` sits at index 0 of `["OH", "H2"]`,
the lookup succeeds with 0, and the resolution nevertheless falls back to
pressure with `d/dt max`. -/
theorem C10_zero_index_fallback_witness :
    loopFind ["OH", "H2"] (try_list "OH") = some 0 ∧
    resolve_ignition ["OH", "H2"] "OH" "max" = (Sum.inl "pressure", "d/dt max") :=
  ⟨by decide,
    C10_zero_index_fallback ["OH", "H2"] "OH" "max" (by decide) (by decide)⟩

theorem np_arange_length (start stop step : ℚ) :
    (np_arange start stop step).length = Int.toNat ⌈(stop - start) / step⌉ := by
  rw [np_arange, List.length_map, List.length_range]

theorem np_arange_getD (start stop step : ℚ) (k : ℕ)
    (hk : k < (np_arange start stop step).length) :
    (np_arange start stop step).getD k 0 = start + (k : ℚ) * step := by
  rw [np_arange] at hk ⊢
  rw [List.getD_eq_getElem _ _ hk]
  simp

theorem np_arange_mem (start stop step : ℚ) (t : ℚ)
    (ht : t ∈ np_arange start stop step) :
    ∃ k : ℕ, k < Int.toNat ⌈(stop - start) / step⌉ ∧ t = start + (k : ℚ) * step := by
  rw [np_arange] at ht
  obtain ⟨k, hk, rfl⟩ := List.mem_map.mp ht
  exact ⟨k, List.mem_range.mp hk, rfl⟩

theorem getD_map_rat (f : ℚ → ℚ) (l : List ℚ) (k : ℕ) (hk : k < l.length) :
    (l.map f).getD k 0 = f (l.getD k 0) := by
  rw [List.getD_eq_getElem _ _ (by simpa using hk), List.getD_eq_getElem _ _ hk,
    List.getElem_map]

/-- C8: counterexample to the claim that every sampled time lies in
`[0, time_end]`.  `np.arange(0, time_end + 1/freq, 1/freq)` runs up to but
excluding `time_end + 1/freq`, so when `time_end` is not an exact multiple
of the 1/20000 s spacing the last sample exceeds `time_end`: with
`time_end = 3/40000` the grid is `[0, 1/20000, 1/10000]` and the last
sample `1/10000 > 3/40000`. -/
theorem C8_time_grid_counterexample :
    (1/10000 : ℚ) ∈ (sample_rising_pressure (3/40000) 100000 20000 10).1 ∧
    ¬((1/10000 : ℚ) ≤ 3/40000) := by
  have h1 : (sample_rising_pressure (3/40000) 100000 20000 10).1 =
      np_arange 0 ((3 : ℚ)/40000 + 1/20000) (1/20000) := rfl
  have h : ((3 : ℚ)/40000 + 1/20000 - 0) / (1/20000) = 5/2 := by norm_num
  have hc : (⌈((5 : ℚ)/2)⌉ : ℤ) = 3 := by
    rw [Int.ceil_eq_iff]
    constructor <;> norm_num
  have harr : np_arange 0 ((3 : ℚ)/40000 + 1/20000) (1/20000) =
      [0, 1/20000, 1/10000] := by
    rw [np_arange, h, hc]
    simp [List.range_succ]
    norm_num
  rw [h1, harr]
  norm_num

/-- C8 (amended): `create_volume_history` samples pressure on the
arithmetic grid `k/20000` (20 kHz); every sample lies in
`[0, time_end + 1/20000)` — not in `[0, time_end]`, which fails whenever
`time_end` is not a multiple of 1/20000 — the pressure at each sampled time
`t` is `P0·(A·t + 1)`, and each volume sample is the initial density
divided by the density queried at the initial entropy and that sampled
pressure. -/
theorem C8_time_grid_amended (density : ℚ → ℚ → ℚ) (s0 d0 P0 A tend : ℚ)
    (_htend : 0 < tend) :
    (create_volume_history density s0 d0 P0 A tend).1 =
      (sample_rising_pressure tend P0 20000 A).1 ∧
    (∀ k : ℕ, k < (sample_rising_pressure tend P0 20000 A).1.length →
      (sample_rising_pressure tend P0 20000 A).1.getD k 0 = (k : ℚ) / 20000) ∧
    (∀ t ∈ (sample_rising_pressure tend P0 20000 A).1,
      0 ≤ t ∧ t < tend + 1/20000) ∧
    (∀ k : ℕ, k < (sample_rising_pressure tend P0 20000 A).1.length →
      (sample_rising_pressure tend P0 20000 A).2.getD k 0 =
        P0 * (A * ((sample_rising_pressure tend P0 20000 A).1.getD k 0) + 1)) ∧
    (∀ k : ℕ, k < (sample_rising_pressure tend P0 20000 A).1.length →
      (create_volume_history density s0 d0 P0 A tend).2.getD k 0 =
        d0 / density s0 ((sample_rising_pressure tend P0 20000 A).2.getD k 0)) := by
  have h1 : (sample_rising_pressure tend P0 20000 A).1 =
      np_arange 0 (tend + 1/20000) (1/20000) := rfl
  refine ⟨rfl, ?_, ?_, ?_, ?_⟩
  · intro k hk
    rw [h1] at hk ⊢
    rw [np_arange_getD _ _ _ _ hk, zero_add, mul_one_div]
  · intro t ht
    rw [h1] at ht
    obtain ⟨k, hk, rfl⟩ := np_arange_mem _ _ _ _ ht
    have hz : ((tend + 1/20000 - 0) / (1/20000)) = 20000 * tend + 1 := by
      field_simp
      ring
    rw [hz] at hk
    have hk' : (k : ℤ) < ⌈(20000 * tend + 1 : ℚ)⌉ := Int.lt_toNat.mp hk
    have hkq : (k : ℚ) < 20000 * tend + 1 := by
      have hle : ((k : ℤ) : ℚ) ≤ (⌈(20000 * tend + 1 : ℚ)⌉ : ℚ) - 1 := by
        have : (k : ℤ) ≤ ⌈(20000 * tend + 1 : ℚ)⌉ - 1 := by omega
        exact_mod_cast this
      have hcl : (⌈(20000 * tend + 1 : ℚ)⌉ : ℚ) < (20000 * tend + 1) + 1 :=
        Int.ceil_lt_add_one _
      push_cast at hle
      linarith
    constructor
    · positivity
    · nlinarith
  · intro k hk
    have h2 : (sample_rising_pressure tend P0 20000 A).2 =
        (sample_rising_pressure tend P0 20000 A).1.map
          (fun t => P0 * (A * t + 1)) := rfl
    rw [h2, getD_map_rat _ _ _ hk]
  · intro k hk
    have h3 : (create_volume_history density s0 d0 P0 A tend).2 =
        (sample_rising_pressure tend P0 20000 A).2.map
          (fun p => d0 / density s0 p) := rfl
    have hk2 : k < (sample_rising_pressure tend P0 20000 A).2.length := by
      have : (sample_rising_pressure tend P0 20000 A).2.length =
          (sample_rising_pressure tend P0 20000 A).1.length := by
        rw [show (sample_rising_pressure tend P0 20000 A).2 =
          (sample_rising_pressure tend P0 20000 A).1.map
            (fun t => P0 * (A * t + 1)) from rfl, List.length_map]
      rw [this]
      exact hk
    rw [h3, getD_map_rat _ _ _ hk2]

/-- Witness for the amended C8: at `time_end = 1/20000`, `P0 = 3`, `A = 1`,
with the density query modelled by the identity in pressure, the grid has
the two samples `0` and `1/20000`, the second pressure sample is
`3·(1/20000 + 1)` and the second volume sample is `2` divided by that
pressure. -/
theorem C8_time_grid_amended_witness :
    (create_volume_history (fun _ p => p) 0 2 3 1 (1/20000)).1 =
      (sample_rising_pressure (1/20000) 3 20000 1).1 ∧
    (sample_rising_pressure (1/20000) 3 20000 1).1.getD 1 0 = 1/20000 ∧
    (sample_rising_pressure (1/20000) 3 20000 1).2.getD 1 0 =
      3 * (1 * (1/20000) + 1) ∧
    (create_volume_history (fun _ p => p) 0 2 3 1 (1/20000)).2.getD 1 0 =
      2 / (3 * (1 * (1/20000) + 1)) := by
  have h := C8_time_grid_amended (fun _ p => p) 0 2 3 1 (1/20000) (by norm_num)
  have hlen : (sample_rising_pressure ((1:ℚ)/20000) 3 20000 1).1.length = 2 := by
    have h1 : (sample_rising_pressure ((1:ℚ)/20000) 3 20000 1).1 =
        np_arange 0 ((1 : ℚ)/20000 + 1/20000) (1/20000) := rfl
    have hz : ((1 : ℚ)/20000 + 1/20000 - 0) / (1/20000) = 2 := by norm_num
    rw [h1, np_arange_length, hz]
    rfl
  have hk : 1 < (sample_rising_pressure ((1:ℚ)/20000) 3 20000 1).1.length := by
    rw [hlen]
    norm_num
  have ht1 : (sample_rising_pressure ((1:ℚ)/20000) 3 20000 1).1.getD 1 0 = 1/20000 := by
    rw [h.2.1 1 hk]
    norm_num
  refine ⟨h.1, ht1, ?_, ?_⟩
  · rw [h.2.2.2.1 1 hk, ht1]
  · rw [h.2.2.2.2 1 hk, h.2.2.2.1 1 hk, ht1]

theorem getD_map_of_lt {α β : Type} (f : α → β) (l : List α) (dA : α) (dB : β)
    (k : ℕ) (hk : k < l.length) : (l.map f).getD k dB = f (l.getD k dA) := by
  rw [List.getD_eq_getElem _ _ (by simpa using hk), List.getD_eq_getElem _ _ hk,
    List.getElem_map]

theorem detect_peaks_sorted (x : List ℚ) : (detect_peaks x).Pairwise (· < ·) := by
  rw [detect_peaks]
  exact (List.pairwise_lt_range _).sublist (List.filter_sublist _)

theorem detect_peaks_bound (x : List ℚ) : ∀ i ∈ detect_peaks x, i + 1 < x.length := by
  intro i hi
  rw [detect_peaks] at hi
  have h := (List.mem_filter.mp hi).2
  simp only [Bool.and_eq_true, decide_eq_true_eq] at h
  exact h.1.1.2

theorem ddt_target_length (ignType : String) (time target : List ℚ) :
    (ddt_target ignType time target).length = target.length := by
  rw [ddt_target]
  split
  · exact length_first_derivative _ _
  · rfl

theorem fallback_pair_fst_length (ignType : String) (time t1 : List ℚ) :
    (fallback_pair ignType time t1).1.length = t1.length := by
  rw [fallback_pair]
  split
  · exact length_first_derivative _ _
  · rfl

theorem fallback_pair_sorted (ignType : String) (time t1 : List ℚ) :
    (fallback_pair ignType time t1).2.Pairwise (· < ·) := by
  rw [fallback_pair]
  split
  · exact detect_peaks_sorted _
  · exact detect_peaks_sorted _

theorem fallback_pair_bound (ignType : String) (time t1 : List ℚ) :
    ∀ i ∈ (fallback_pair ignType time t1).2,
      i < (fallback_pair ignType time t1).1.length := by
  rw [fallback_pair]
  split
  · intro i hi
    exact Nat.lt_of_succ_lt (detect_peaks_bound _ i hi)
  · intro i hi
    exact Nat.lt_of_succ_lt (detect_peaks_bound _ i hi)

theorem filter_le_eq_takeWhile (M : ℕ) :
    ∀ l : List ℕ, l.Pairwise (· < ·) →
      l.filter (fun i => decide (i ≤ M)) = l.takeWhile (fun i => decide (i ≤ M))
  | [], _ => rfl
  | a :: l, hp => by
    by_cases ha : a ≤ M
    · rw [List.filter_cons, List.takeWhile_cons, if_pos (by simpa using ha),
        if_pos (by simpa using ha),
        filter_le_eq_takeWhile M l (List.pairwise_cons.mp hp).2]
    · have hall : ∀ b ∈ l, ¬(b ≤ M) := fun b hb hle =>
        ha (le_trans (le_of_lt ((List.pairwise_cons.mp hp).1 b hb)) hle)
      rw [List.filter_cons, List.takeWhile_cons, if_neg (by simpa using ha),
        if_neg (by simpa using ha),
        List.filter_eq_nil_iff.mpr (fun b hb => by simpa using hall b hb)]

theorem getD_takeWhile_eq (q : ℕ → Bool) (l : List ℕ) (j : ℕ)
    (hj : j < (l.takeWhile q).length) :
    (l.takeWhile q).getD j 0 = l.getD j 0 := by
  conv_rhs => rw [← List.takeWhile_append_dropWhile (p := q) (l := l)]
  rw [List.getD_append _ _ _ _ hj]

theorem map_getD_filter_range (p : ℕ → Bool) (d : ℕ) :
    ∀ l : List ℕ,
      (((List.range l.length).filter fun j => p (l.getD j d)).map fun j => l.getD j d) =
        l.filter p
  | [] => rfl
  | a :: t => by
    have ih := map_getD_filter_range p d t
    have hcomp : ((fun j => p ((a :: t).getD j d)) ∘ Nat.succ) = fun j => p (t.getD j d) := by
      funext j
      simp only [Function.comp_apply, List.getD_cons_succ]
    have hcomp2 : ((fun j => (a :: t).getD j d) ∘ Nat.succ) = fun j => t.getD j d := by
      funext j
      simp only [Function.comp_apply, List.getD_cons_succ]
    rw [List.length_cons, List.range_succ_eq_map, List.filter_cons]
    by_cases hpa : p a = true
    · have hq0 : p ((a :: t).getD 0 d) = true := by rwa [List.getD_cons_zero]
      rw [if_pos hq0, List.map_cons, List.filter_map, hcomp, List.map_map, hcomp2, ih,
        List.getD_cons_zero, List.filter_cons, if_pos hpa]
    · have hq0 : ¬ p ((a :: t).getD 0 d) = true := by rwa [List.getD_cons_zero]
      rw [if_neg hq0, List.filter_map, hcomp, List.map_map, hcomp2, ih,
        List.filter_cons, if_neg hpa]

theorem sel_eq (time : List ℚ) (comp : ℚ) (M : ℕ) (ind : List ℕ)
    (hs : ind.Pairwise (· < ·)) :
    (((List.range ((ind.filter fun i => decide (i ≤ M)).map fun i =>
          decide (0 < time.getD i 0 - comp)).length).filter fun j =>
        ((ind.filter fun i => decide (i ≤ M)).map fun i =>
          decide (0 < time.getD i 0 - comp)).getD j false).map fun j => ind.getD j 0) =
      ind.filter fun i => decide (i ≤ M) && decide (0 < time.getD i 0 - comp) := by
  have hstep1 : ((List.range ((ind.filter fun i => decide (i ≤ M)).map fun i =>
        decide (0 < time.getD i 0 - comp)).length).filter fun j =>
          ((ind.filter fun i => decide (i ≤ M)).map fun i =>
            decide (0 < time.getD i 0 - comp)).getD j false) =
      ((List.range (ind.filter fun i => decide (i ≤ M)).length).filter fun j =>
        decide (0 < time.getD ((ind.filter fun i => decide (i ≤ M)).getD j 0) 0 - comp)) := by
    rw [List.length_map]
    apply List.filter_congr
    intro j hj
    exact getD_map_of_lt _ _ 0 false j (List.mem_range.mp hj)
  rw [hstep1]
  have hstep2 : (((List.range (ind.filter fun i => decide (i ≤ M)).length).filter fun j =>
        decide (0 < time.getD ((ind.filter fun i => decide (i ≤ M)).getD j 0) 0 - comp)).map
          fun j => ind.getD j 0) =
      (((List.range (ind.filter fun i => decide (i ≤ M)).length).filter fun j =>
        decide (0 < time.getD ((ind.filter fun i => decide (i ≤ M)).getD j 0) 0 - comp)).map
          fun j => (ind.filter fun i => decide (i ≤ M)).getD j 0) := by
    apply List.map_congr_left
    intro j hj
    have hjlen : j < (ind.filter fun i => decide (i ≤ M)).length :=
      List.mem_range.mp (List.mem_filter.mp hj).1
    rw [filter_le_eq_takeWhile M ind hs] at hjlen ⊢
    exact (getD_takeWhile_eq _ ind j hjlen).symm
  rw [hstep2, map_getD_filter_range (fun i => decide (0 < time.getD i 0 - comp)) 0
    (ind.filter fun i => decide (i ≤ M)), List.filter_filter]
  apply List.filter_congr
  intro a _
  exact Bool.and_comm _ _

theorem select_delays_spec (time target : List ℚ) (ind : List ℕ) (comp : ℚ)
    (hne : ind ≠ []) (hs : ind.Pairwise (· < ·)) :
    select_delays time target ind comp =
      Except.ok
        ((if 0 < (candidate_delays time target ind comp).length
            then (candidate_delays time target ind comp).getLastD 0 else 0),
          if 1 < (candidate_delays time target ind comp).length
            then some ((candidate_delays time target ind comp).getD 0 0) else none) := by
  simp only [select_delays]
  rw [if_neg hne, candidate_delays,
    sel_eq time comp (ind.getD (np_argmax (ind.map fun i => target.getD i 0)) 0) ind hs]

theorem time_getD_lt (time : List ℚ) (htime : time.Pairwise (· < ·)) (a b : ℕ)
    (ha : a < time.length) (hb : b < time.length) (hab : a < b) :
    time.getD a 0 < time.getD b 0 := by
  rw [List.getD_eq_getElem _ _ ha, List.getD_eq_getElem _ _ hb]
  simpa using List.pairwise_iff_get.mp htime ⟨a, ha⟩ ⟨b, hb⟩ hab

theorem candidate_delays_sorted (time target : List ℚ) (ind : List ℕ) (comp : ℚ)
    (hs : ind.Pairwise (· < ·)) (htime : time.Pairwise (· < ·))
    (hbound : ∀ i ∈ ind, i < time.length) :
    (candidate_delays time target ind comp).Pairwise (· < ·) := by
  rw [candidate_delays, List.pairwise_map]
  have hf : (ind.filter fun i =>
      decide (i ≤ ind.getD (np_argmax (ind.map fun j => target.getD j 0)) 0) &&
      decide (0 < time.getD i 0 - comp)).Pairwise (· < ·) :=
    hs.sublist (List.filter_sublist _)
  apply List.Pairwise.imp_of_mem ?_ hf
  intro a b ha hb hab
  have haM : a ∈ ind := (List.mem_filter.mp ha).1
  have hbM : b ∈ ind := (List.mem_filter.mp hb).1
  have := time_getD_lt time htime a b (hbound a haM) (hbound b hbM) hab
  linarith

/-- C6: in `process_results`, with `max_peak` the detected peak with the
largest channel value (first of ties, per `np.argmax`) and
`compression_time` the declared RCM offset (0 otherwise), the candidate
delays are exactly the peaks `p ≤ max_peak` with `time[p] -
compression_time > 0`, in increasing time order (second conjunct); the
overall delay is the last candidate when one exists and 0 s otherwise, and
the first-stage delay is the first candidate when at least two exist and
the NaN marker (`none`) otherwise.  Hypotheses: channel and time series
have equal length, times strictly increase, and the final peak set is
nonempty (otherwise `np.argmax` raises — claim C3). -/
theorem C6_delay_selection (ignType : String) (time target : List ℚ) (comp : ℚ)
    (hlen : target.length = time.length)
    (htime : time.Pairwise (· < ·))
    (hne : (fallback_pair ignType time (ddt_target ignType time target)).2 ≠ []) :
    process_results ignType time target comp =
      Except.ok
        ((if 0 < (candidate_delays time
              (fallback_pair ignType time (ddt_target ignType time target)).1
              (fallback_pair ignType time (ddt_target ignType time target)).2 comp).length
          then (candidate_delays time
              (fallback_pair ignType time (ddt_target ignType time target)).1
              (fallback_pair ignType time (ddt_target ignType time target)).2
                comp).getLastD 0
          else 0),
          if 1 < (candidate_delays time
              (fallback_pair ignType time (ddt_target ignType time target)).1
              (fallback_pair ignType time (ddt_target ignType time target)).2 comp).length
          then some ((candidate_delays time
              (fallback_pair ignType time (ddt_target ignType time target)).1
              (fallback_pair ignType time (ddt_target ignType time target)).2
                comp).getD 0 0)
          else none) ∧
    (candidate_delays time
        (fallback_pair ignType time (ddt_target ignType time target)).1
        (fallback_pair ignType time (ddt_target ignType time target)).2
          comp).Pairwise (· < ·) := by
  have hs := fallback_pair_sorted ignType time (ddt_target ignType time target)
  have hbound : ∀ i ∈ (fallback_pair ignType time (ddt_target ignType time target)).2,
      i < time.length := by
    intro i hi
    have h1 := fallback_pair_bound ignType time (ddt_target ignType time target) i hi
    rwa [fallback_pair_fst_length, ddt_target_length, hlen] at h1
  constructor
  · have hproc : process_results ignType time target comp =
        select_delays time
          (fallback_pair ignType time (ddt_target ignType time target)).1
          (fallback_pair ignType time (ddt_target ignType time target)).2 comp := rfl
    rw [hproc, select_delays_spec _ _ _ _ hne hs]
  · exact candidate_delays_sorted _ _ _ _ hs htime hbound

/-- Witness for C6: ignition type `max`, channel `[0,5,1,7,0]` over times
`[0,1,2,3,4]`, no compression offset: peaks at 1 and 3, dominant peak at 3,
candidates `[1, 3]`, overall delay 3, first-stage delay 1. -/
theorem C6_delay_selection_witness :
    process_results "max" [0, 1, 2, 3, 4] [0, 5, 1, 7, 0] 0 =
      Except.ok (3, some 1) := by
  have hddt : ddt_target "max" [0, 1, 2, 3, 4] [0, 5, 1, 7, 0] = [0, 5, 1, 7, 0] := by
    rw [ddt_target, if_neg (by decide)]
  have hdp : detect_peaks ([0, 5, 1, 7, 0] : List ℚ) = [1, 3] := by decide
  have hfb : fallback_pair "max" [0, 1, 2, 3, 4] [0, 5, 1, 7, 0] =
      ([0, 5, 1, 7, 0], [1, 3]) := by
    rw [fallback_pair]
    simp [hdp]
  have h := (C6_delay_selection "max" [0, 1, 2, 3, 4] [0, 5, 1, 7, 0] 0 rfl
    (by decide) (by rw [hddt, hfb]; simp)).1
  rw [hddt, hfb] at h
  rw [h]
  have hcand : candidate_delays [0, 1, 2, 3, 4] [0, 5, 1, 7, 0] [1, 3] 0 = [1, 3] := by
    norm_num [candidate_delays, np_argmax, argmaxGo]
  rw [hcand]
  norm_num

/-- C4: in `process_results`, when the first run of `detect_peaks` returns
no peaks and the ignition type is `max`, the channel is replaced by its
`first_derivative` with respect to time and `detect_peaks` is re-run on the
derivative (first conjunct); when peaks are found the channel is kept
(second conjunct); and for type `d/dt max` the channel is differentiated
once by step 2 and the empty-peak fallback is never applied — even an empty
peak set leads directly to delay selection on the single derivative (third
conjunct). -/
theorem C4_derivative_fallback (time target : List ℚ) (comp : ℚ) :
    (detect_peaks target = [] →
      process_results "max" time target comp =
        select_delays time (first_derivative time target)
          (detect_peaks (first_derivative time target)) comp) ∧
    (detect_peaks target ≠ [] →
      process_results "max" time target comp =
        select_delays time target (detect_peaks target) comp) ∧
    (process_results "d/dt max" time target comp =
      select_delays time (first_derivative time target)
        (detect_peaks (first_derivative time target)) comp) := by
  have hmax : ¬(("max" : String) = "d/dt max") := by decide
  refine ⟨?_, ?_, ?_⟩
  · intro h
    simp only [process_results, ddt_target, if_neg hmax, fallback_pair, h]
    simp
  · intro h
    simp only [process_results, ddt_target, if_neg hmax, fallback_pair]
    simp [h]
  · simp only [process_results, ddt_target, if_pos rfl, fallback_pair]
    simp [hmax]

/-- Witness for C4: with channel `[0,1,2]` (monotone, no peaks) and type
`max`, processing equals delay selection on the differentiated channel; and
with type `d/dt max` processing equals delay selection on the
once-differentiated channel with no second differentiation. -/
theorem C4_derivative_fallback_witness :
    detect_peaks ([0, 1, 2] : List ℚ) = [] ∧
    process_results "max" [0, 1, 2] [0, 1, 2] 0 =
      select_delays [0, 1, 2] (first_derivative [0, 1, 2] [0, 1, 2])
        (detect_peaks (first_derivative [0, 1, 2] [0, 1, 2])) 0 ∧
    detect_peaks ([0, 5, 1] : List ℚ) ≠ [] ∧
    process_results "max" [0, 1, 2] [0, 5, 1] 0 =
      select_delays [0, 1, 2] [0, 5, 1] (detect_peaks [0, 5, 1]) 0 ∧
    process_results "d/dt max" [0, 1, 2] [3, 1, 2] 0 =
      select_delays [0, 1, 2] (first_derivative [0, 1, 2] [3, 1, 2])
        (detect_peaks (first_derivative [0, 1, 2] [3, 1, 2])) 0 :=
  ⟨by decide, (C4_derivative_fallback [0, 1, 2] [0, 1, 2] 0).1 (by decide),
    by decide, (C4_derivative_fallback [0, 1, 2] [0, 5, 1] 0).2.1 (by decide),
    (C4_derivative_fallback [0, 1, 2] [3, 1, 2] 0).2.2⟩

/-- C3: counterexample to the claim that an empty peak set after all
fallbacks yields the sentinel delay 0 with no exception.  The monotone
channel `[0,1,2]` with type `max` has no peaks; the fallback differentiates
(giving the all-zero channel `[0,0,0]` — numpy would give all-`nan`) and
still finds no peaks; `process_results` then evaluates
`ind[np.argmax(target[ind])]` with `ind` empty, and `np.argmax` of an empty
sequence raises `ValueError` instead of returning the sentinel. -/
theorem C3_empty_peaks_counterexample :
    (fallback_pair "max" [0, 1, 2] (ddt_target "max" [0, 1, 2] [0, 1, 2])).2 = [] ∧
    process_results "max" [0, 1, 2] [0, 1, 2] 0 =
      Except.error "attempt to get argmax of an empty sequence" ∧
    process_results "max" [0, 1, 2] [0, 1, 2] 0 ≠ Except.ok (0, none) := by
  have hddt : ddt_target "max" [0, 1, 2] [0, 1, 2] = [0, 1, 2] := by
    rw [ddt_target, if_neg (by decide)]
  have hd : first_derivative [0, 1, 2] [0, 1, 2] = [0, 0, 0] := by
    norm_num [first_derivative, npGradientUnit, npGradientCoords, List.range_succ]
  have h1 : detect_peaks ([0, 1, 2] : List ℚ) = [] := by decide
  have h2 : detect_peaks ([0, 0, 0] : List ℚ) = [] := by decide
  have hfb : fallback_pair "max" [0, 1, 2] [0, 1, 2] = ([0, 0, 0], []) := by
    rw [fallback_pair]
    simp [h1, hd, h2]
  have hproc : process_results "max" [0, 1, 2] [0, 1, 2] 0 =
      select_delays [0, 1, 2]
        (fallback_pair "max" [0, 1, 2] (ddt_target "max" [0, 1, 2] [0, 1, 2])).1
        (fallback_pair "max" [0, 1, 2] (ddt_target "max" [0, 1, 2] [0, 1, 2])).2 0 := rfl
  refine ⟨by rw [hddt, hfb], ?_, ?_⟩
  · rw [hproc, hddt, hfb]
    rw [select_delays, if_pos rfl]
  · rw [hproc, hddt, hfb]
    rw [select_delays, if_pos rfl]
    simp

/-- C3 (amended): when the peak set is empty after all fallbacks,
`process_results` raises (the embedded `ValueError` of `np.argmax` on an
empty sequence); the sentinel — overall delay 0 s with the NaN first-stage
marker — is produced exactly when peaks exist but the candidate-delay set
is empty after the compression-time positivity filter. -/
theorem C3_empty_peaks_amended (ignType : String) (time target : List ℚ) (comp : ℚ) :
    ((fallback_pair ignType time (ddt_target ignType time target)).2 = [] →
      process_results ignType time target comp =
        Except.error "attempt to get argmax of an empty sequence") ∧
    ((fallback_pair ignType time (ddt_target ignType time target)).2 ≠ [] →
      candidate_delays time
          (fallback_pair ignType time (ddt_target ignType time target)).1
          (fallback_pair ignType time (ddt_target ignType time target)).2 comp = [] →
      process_results ignType time target comp = Except.ok (0, none)) := by
  have hproc : process_results ignType time target comp =
      select_delays time
        (fallback_pair ignType time (ddt_target ignType time target)).1
        (fallback_pair ignType time (ddt_target ignType time target)).2 comp := rfl
  constructor
  · intro h
    rw [hproc, h, select_delays, if_pos rfl]
  · intro hne hcand
    have hs := fallback_pair_sorted ignType time (ddt_target ignType time target)
    rw [hproc, select_delays_spec _ _ _ _ hne hs, hcand]
    simp

/-- Witness for the amended C3: the monotone channel `[4,2,1]` (type `max`)
ends with an empty peak set and raises; the single-peak channel `[0,5,0]`
with compression time 5 has no positive candidate delay and yields the
sentinel `(0 s, NaN)`. -/
theorem C3_empty_peaks_amended_witness :
    process_results "max" [0, 1, 2] [4, 2, 1] 0 =
      Except.error "attempt to get argmax of an empty sequence" ∧
    process_results "max" [0, 1, 2] [0, 5, 0] 5 = Except.ok (0, none) := by
  constructor
  · have hddt1 : ddt_target "max" [0, 1, 2] [4, 2, 1] = [4, 2, 1] := by
      rw [ddt_target, if_neg (by decide)]
    have hd : first_derivative [0, 1, 2] [4, 2, 1] = [0, 0, 0] := by
      norm_num [first_derivative, npGradientUnit, npGradientCoords, List.range_succ]
    have ha : detect_peaks ([4, 2, 1] : List ℚ) = [] := by decide
    have hb : detect_peaks ([0, 0, 0] : List ℚ) = [] := by decide
    have hfb1 : fallback_pair "max" [0, 1, 2] [4, 2, 1] = ([0, 0, 0], []) := by
      rw [fallback_pair]
      simp [ha, hd, hb]
    exact (C3_empty_peaks_amended "max" [0, 1, 2] [4, 2, 1] 0).1 (by rw [hddt1, hfb1])
  · have hddt2 : ddt_target "max" [0, 1, 2] [0, 5, 0] = [0, 5, 0] := by
      rw [ddt_target, if_neg (by decide)]
    have hdp : detect_peaks ([0, 5, 0] : List ℚ) = [1] := by decide
    have hfb2 : fallback_pair "max" [0, 1, 2] [0, 5, 0] = ([0, 5, 0], [1]) := by
      rw [fallback_pair]
      simp [hdp]
    have hcand : candidate_delays [0, 1, 2] [0, 5, 0] [1] 5 = [] := by
      norm_num [candidate_delays, np_argmax, argmaxGo]
    exact (C3_empty_peaks_amended "max" [0, 1, 2] [0, 5, 0] 5).2
      (by rw [hddt2, hfb2]; simp) (by rw [hddt2, hfb2]; exact hcand)
